import Mathlib

/-!
Shallow embedding of the `rfc5424` Go package (files `marshal.go` and
`reflect.go`) and proofs of the specification claims about it.

Modelling conventions:
* A Go `string` is its byte sequence, modelled as `List Nat` (each element a
  byte value).  `gostr` converts a Lean string literal to that form via UTF-8.
* A Go `[]byte` is likewise `List Nat`.
* Go `int` (and the named types `Severity`, `Facility`, which are integers) is
  `Int`; the values involved are tiny, so 64-bit overflow never matters.
* `for _, ch := range s` in Go iterates over the decoded runes of `s`
  (invalid bytes yielding the replacement rune 65533); `decodeRunes` models
  that decoding, following the UTF-8 acceptance ranges used by Go's
  `unicode/utf8` package.
* A Go function that can `panic` or return an `error` is modelled with
  `Except`/`Option`.
-/

namespace Rfc5424

/-- UTF-8 encoding of one code point (standard encoding, as used by Go source
literals); used only to build concrete byte strings conveniently. -/
def utf8EncodeCp (c : Nat) : List Nat :=
  if c < 128 then [c]
  else if c < 2048 then [192 + c / 64, 128 + c % 64]
  else if c < 65536 then [224 + c / 4096, 128 + c / 64 % 64, 128 + c % 64]
  else [240 + c / 262144, 128 + c / 4096 % 64, 128 + c / 64 % 64, 128 + c % 64]

/-- The byte sequence of a Go string literal. -/
def gostr (s : String) : List Nat :=
  (s.data.map Char.toNat).foldr (fun c acc => utf8EncodeCp c ++ acc) []

/-- Is `b` a UTF-8 continuation byte? -/
def isCont (b : Nat) : Bool := 128 ≤ b && b ≤ 191

/-- Acceptance range for the second byte of a multi-byte UTF-8 sequence whose
first byte is `b0` (mirrors the `acceptRanges` table of Go `unicode/utf8`). -/
def accept2nd (b0 b1 : Nat) : Bool :=
  if b0 = 224 then 160 ≤ b1 && b1 ≤ 191
  else if b0 = 237 then 128 ≤ b1 && b1 ≤ 159
  else if b0 = 240 then 144 ≤ b1 && b1 ≤ 191
  else if b0 = 244 then 128 ≤ b1 && b1 ≤ 143
  else isCont b1

/-- The sequence of runes produced by Go's `for _, ch := range s` over the
bytes of `s`: valid UTF-8 sequences decode to their code point, any invalid
byte decodes to the replacement rune 65533 and consumes one byte (the
behaviour of `utf8.DecodeRuneInString`). -/
def decodeRunes : List Nat → List Nat
  | [] => []
  | b0 :: rest =>
    if b0 < 128 then b0 :: decodeRunes rest
    else if 194 ≤ b0 && b0 ≤ 223 then
      match rest with
      | b1 :: rest2 =>
        if accept2nd b0 b1 then ((b0 - 192) * 64 + (b1 - 128)) :: decodeRunes rest2
        else 65533 :: decodeRunes (b1 :: rest2)
      | [] => [65533]
    else if 224 ≤ b0 && b0 ≤ 239 then
      match rest with
      | b1 :: b2 :: rest3 =>
        if accept2nd b0 b1 && isCont b2 then
          ((b0 - 224) * 4096 + (b1 - 128) * 64 + (b2 - 128)) :: decodeRunes rest3
        else 65533 :: decodeRunes (b1 :: b2 :: rest3)
      | [b1] => 65533 :: decodeRunes [b1]
      | [] => [65533]
    else if 240 ≤ b0 && b0 ≤ 244 then
      match rest with
      | b1 :: b2 :: b3 :: rest4 =>
        if accept2nd b0 b1 && isCont b2 && isCont b3 then
          ((b0 - 240) * 262144 + (b1 - 128) * 4096 + (b2 - 128) * 64 + (b3 - 128))
            :: decodeRunes rest4
        else 65533 :: decodeRunes (b1 :: b2 :: b3 :: rest4)
      | [b1, b2] => 65533 :: decodeRunes [b1, b2]
      | [b1] => 65533 :: decodeRunes [b1]
      | [] => [65533]
    else 65533 :: decodeRunes rest

/-- Go `utf8.ValidString`: the byte sequence is a well-formed UTF-8 encoding. -/
def utf8Valid : List Nat → Bool
  | [] => true
  | b0 :: rest =>
    if b0 < 128 then utf8Valid rest
    else if 194 ≤ b0 && b0 ≤ 223 then
      match rest with
      | b1 :: rest2 => accept2nd b0 b1 && utf8Valid rest2
      | [] => false
    else if 224 ≤ b0 && b0 ≤ 239 then
      match rest with
      | b1 :: b2 :: rest3 => accept2nd b0 b1 && isCont b2 && utf8Valid rest3
      | _ => false
    else if 240 ≤ b0 && b0 ≤ 244 then
      match rest with
      | b1 :: b2 :: b3 :: rest4 =>
        accept2nd b0 b1 && isCont b2 && isCont b3 && utf8Valid rest4
      | _ => false
    else false

/-- Decimal digits (as ASCII byte values) of `n`, most significant first, no
leading zeros; the first argument is recursion fuel (`n` itself suffices). -/
def natDigitsAux : Nat → Nat → List Nat
  | 0, _ => []
  | fuel + 1, n => if n = 0 then [] else natDigitsAux fuel (n / 10) ++ [48 + n % 10]

/-- ASCII decimal rendering of a natural number (Go `%d` for `n ≥ 0`). -/
def natToDec (n : Nat) : List Nat := if n = 0 then [48] else natDigitsAux n n

/-- ASCII decimal rendering of an integer (Go `fmt` `%d`). -/
def intToDec (i : Int) : List Nat :=
  if i < 0 then 45 :: natToDec (-i).toNat else natToDec i.toNat

/-- `marshal.go:12`: `const allowLongSdNames = true` — allow names longer than
the RFC-specified limit of 32 characters. -/
def allowLongSdNames : Bool := true

/-- The value stored in an `errorInvalidValue` (Go `interface\x7b\x7d`): the offending
field is either an integer-typed or a string-typed property. -/
inductive GoValue where
  | int (i : Int)
  | str (s : List Nat)
deriving DecidableEq

/-- `marshal.go:14`: `errorInvalidValue` with its `Property` and `Value`. -/
structure ErrorInvalidValue where
  Property : String
  Value : GoValue
deriving DecidableEq

/-- `marshal.go:25`: `InvalidValue` builds an invalid value error. -/
def InvalidValue (property : String) (value : GoValue) : ErrorInvalidValue :=
  { Property := property, Value := value }

/-- `marshal.go:29`: `nilify` replaces an empty string by `"-"`. -/
def nilify (x : List Nat) : List Nat := if x = [] then [45] else x

/-- Is `c` one of the three escaped bytes `\\`, `"`, `]`? -/
def isEscaped (c : Nat) : Bool := c = 92 || c = 34 || c = 93

/-- `marshal.go:36`: `escapeSDParam` counts the bytes needing escaping; if none
it returns the input unchanged, otherwise it rebuilds the string inserting a
backslash before each `\\`, `"`, `]` byte. -/
def escapeSDParam (s : List Nat) : List Nat :=
  let escapeCount := (s.filter (fun c => isEscaped c)).length
  if escapeCount = 0 then s
  else (s.map (fun c => if isEscaped c then [92, c] else [c])).flatten

/-- `marshal.go:64`: `isPrintableUsASCII` — every rune of `s` is in 33..126. -/
def isPrintableUsASCII (s : List Nat) : Bool :=
  (decodeRunes s).all (fun ch => !(ch < 33 || 126 < ch))

/-- `marshal.go:73`: `isValidSdName` — optional length ceiling (disabled, since
`allowLongSdNames` is `true`), then every rune must be printable US-ASCII and
not `=`, `]`, `"`. -/
def isValidSdName (s : List Nat) : Bool :=
  if !allowLongSdNames && s.length > 32 then false
  else
    (decodeRunes s).all (fun ch =>
      !(ch < 33 || 126 < ch) && !(ch = 61 || ch = 93 || ch = 34))

/-- A structured-data parameter.  Modelled from the spec: the wire-format value
type is declared outside the two source files; per spec §3 a
`StructuredDataParam` has a `Name` and a `Value` string. -/
structure SDParam where
  Name : List Nat
  Value : List Nat
deriving DecidableEq

/-- A structured-data element.  Modelled from the spec: per spec §3 a
`StructuredDataElement` has an `ID` and an ordered list of `Parameters`. -/
structure SDElement where
  ID : List Nat
  Parameters : List SDParam
deriving DecidableEq

/-- A point in time.  Modelled from the spec: `Timestamp` is "a point in time,
encoded with nanosecond-precision offset-aware formatting"; Go's `time.Time`
and its formatter are standard-library externals, so a time value is modelled
by the byte string that `Format(time.RFC3339Nano)` renders it to. -/
structure GoTime where
  rfc3339NanoBytes : List Nat
deriving DecidableEq

/-- The wire-format message.  Modelled from the spec: the `Message` struct
declaration lives outside the two source files; per spec §3 it carries
Severity, Facility, Timestamp, Hostname, AppName, ProcessID, MessageID, the
StructuredData list and an opaque byte body (fields exactly as used by
`marshal.go`). -/
structure Message where
  Severity : Int
  Facility : Int
  Timestamp : GoTime
  Hostname : List Nat
  AppName : List Nat
  ProcessID : List Nat
  MessageID : List Nat
  StructuredData : List SDElement
  Message : List Nat
deriving DecidableEq

/-- The inner loop of `marshal.go:132-139`: validate the parameters of one
element, returning the first failure. -/
def validateParams : List SDParam → Option ErrorInvalidValue
  | [] => none
  | p :: rest =>
    if !isValidSdName p.Name then some (InvalidValue "StructuredData/Name" (.str p.Name))
    else if !utf8Valid p.Value then some (InvalidValue "StructuredData/Value" (.str p.Value))
    else validateParams rest

/-- The loop of `marshal.go:128-140`: validate the structured-data elements,
returning the first failure. -/
def validateElements : List SDElement → Option ErrorInvalidValue
  | [] => none
  | e :: rest =>
    if !isValidSdName e.ID then some (InvalidValue "StructuredData/ID" (.str e.ID))
    else
      match validateParams e.Parameters with
      | some err => some err
      | none => validateElements rest

/-- `marshal.go:88`: `assertValid` — the validation chain, returning the first
failing check as an invalid-value error, or `none` when the message is valid. -/
def assertValid (m : Message) : Option ErrorInvalidValue :=
  if m.Severity < 0 ∨ m.Severity > 8 then some (InvalidValue "Severity" (.int m.Severity))
  else if m.Facility < 0 ∨ m.Facility > 23 then some (InvalidValue "Facility" (.int m.Facility))
  else if !isPrintableUsASCII m.Hostname then some (InvalidValue "Hostname" (.str m.Hostname))
  else if m.Hostname.length > 255 then some (InvalidValue "Hostname" (.str m.Hostname))
  else if !isPrintableUsASCII m.AppName then some (InvalidValue "AppName" (.str m.AppName))
  else if m.AppName.length > 48 then some (InvalidValue "AppName" (.str m.AppName))
  else if !isPrintableUsASCII m.ProcessID then some (InvalidValue "ProcessID" (.str m.ProcessID))
  else if m.ProcessID.length > 128 then some (InvalidValue "ProcessID" (.str m.ProcessID))
  else if !isPrintableUsASCII m.MessageID then some (InvalidValue "MessageID" (.str m.MessageID))
  else if m.MessageID.length > 32 then some (InvalidValue "MessageID" (.str m.MessageID))
  else validateElements m.StructuredData

/-- One iteration of the element loop of `marshal.go:162-169`: append to the
buffer `[` ID, then ` name="escaped-value"` for each parameter, then `]`. -/
def writeSDElement (b : List Nat) (e : SDElement) : List Nat :=
  (e.Parameters.foldl
    (fun b p => b ++ [32] ++ p.Name ++ [61, 34] ++ escapeSDParam p.Value ++ [34])
    (b ++ [91] ++ e.ID)) ++ [93]

/-- `marshal.go:145`: `MarshalBinary` — validate, then write `<PRI>1 TIMESTAMP
HOST APP PROC MSGID SD` to the buffer, appending ` MESSAGE` only when the body
is non-empty.  The byte constants: 60 `<`, 62 `>`, 49 `1`, 32 space, 45 `-`,
91 `[`, 93 `]`. -/
def MarshalBinary (m : Message) : Except ErrorInvalidValue (List Nat) :=
  match assertValid m with
  | some err => .error err
  | none =>
    let b : List Nat :=
      [60] ++ intToDec (Int.lor m.Severity (m.Facility <<< (3 : Int))) ++ [62, 49, 32]
        ++ m.Timestamp.rfc3339NanoBytes ++ [32]
        ++ nilify m.Hostname ++ [32] ++ nilify m.AppName ++ [32]
        ++ nilify m.ProcessID ++ [32] ++ nilify m.MessageID ++ [32]
    let b := if m.StructuredData.length = 0 then b ++ [45] else b
    let b := m.StructuredData.foldl writeSDElement b
    let b := if m.Message.length > 0 then b ++ [32] ++ m.Message else b
    .ok b

/-- Decidable equality of `Except` results, for evaluating concrete runs. -/
instance exceptDecEq {ε α : Type} [DecidableEq ε] [DecidableEq α] :
    DecidableEq (Except ε α) := fun a b =>
  match a, b with
  | .error e₁, .error e₂ =>
    if h : e₁ = e₂ then .isTrue (by rw [h])
    else .isFalse (by intro hc; cases hc; exact h rfl)
  | .ok v₁, .ok v₂ =>
    if h : v₁ = v₂ then .isTrue (by rw [h])
    else .isFalse (by intro hc; cases hc; exact h rfl)
  | .error _, .ok _ => .isFalse (by intro hc; cases hc)
  | .ok _, .error _ => .isFalse (by intro hc; cases hc)

/-! ### Embedding of `reflect.go` -/

/-- `reflect.go:14`: `defaultSeverity = Info`.  Modelled from the spec: the
Severity enumeration lives outside the two source files; `Info` is syslog
severity 6. -/
def defaultSeverity : Int := 6

/-- `reflect.go:15`: `defaultFacility = Local0`.  Modelled from the spec: the
Facility enumeration lives outside the two source files; `Local0` is syslog
facility 16. -/
def defaultFacility : Int := 16

/-- `reflect.go:16`: `defaultStructuredDataID = "0@local"`. -/
def defaultStructuredDataID : String := "0@local"

/-- `reflect.go:28`: `defaultAppName`.  Modelled from the spec: read once from
the process environment (executable basename); its value is immaterial to the
claims, fixed here to a placeholder. -/
def defaultAppName : String := "app"

/-- Modelled from the spec: the severity name table, "string →
enumerated-value lookup" consumed as an already-defined immutable table; the
standard syslog severities. -/
def severityNames : List (String × Int) :=
  [("Emergency", 0), ("Alert", 1), ("Critical", 2), ("Error", 3),
   ("Warning", 4), ("Notice", 5), ("Info", 6), ("Debug", 7)]

/-- Modelled from the spec: the facility name table, consumed as an
already-defined immutable table; the standard syslog facilities. -/
def facilityNames : List (String × Int) :=
  [("Kern", 0), ("User", 1), ("Mail", 2), ("Daemon", 3), ("Auth", 4),
   ("Syslog", 5), ("Lpr", 6), ("News", 7), ("Uucp", 8), ("Cron", 9),
   ("Authpriv", 10), ("Ftp", 11), ("Local0", 16), ("Local1", 17),
   ("Local2", 18), ("Local3", 19), ("Local4", 20), ("Local5", 21),
   ("Local6", 22), ("Local7", 23)]

/-- Table lookup (Go `names[fieldTag]` on the name maps). -/
def lookupName (table : List (String × Int)) (k : String) : Option Int :=
  (table.find? (fun p => p.1 == k)).map (fun p => p.2)

/-- One declared field of a record type, as seen through Go reflection: its
name, the value of its `log` struct tag (`Tag.Get("log")`, empty when absent)
and its `PkgPath` (empty exactly when the field is exported). -/
structure StructField where
  Name : String
  Tag : String
  PkgPath : String
deriving DecidableEq

/-- A record type as seen through Go reflection: its name and its declared
fields in declaration order.  (Go compares `reflect.Type` values by identity;
two struct types are identical exactly when name and declaration agree, which
structural equality captures.) -/
structure GoType where
  Name : String
  Fields : List StructField
deriving DecidableEq

/-- `reflect.go:55`: `structuredDataFieldReflection`. -/
structure StructuredDataFieldReflection where
  FieldIndex : Int
  OmitEmpty : Bool
  FieldName : String
  SdID : String
deriving DecidableEq

/-- `reflect.go:37`: `reflection` (the spec's FieldMap).  The Go field `Type`
is spelled `Typ` because `Type` is reserved in Lean. -/
structure Reflection where
  Typ : GoType
  SeverityFieldIndex : Int
  SeverityDefault : Int
  FacilityFieldIndex : Int
  FacilityDefault : Int
  TimestampFieldIndex : Int
  HostnameFieldIndex : Int
  AppNameFieldIndex : Int
  AppNameDefault : String
  ProcessIDFieldIndex : Int
  MessageIDFieldIndex : Int
  MessageIDDefault : String
  MessageFieldIndex : Int
  SDIDDefault : String
  StructuredDataFieldReflections : List StructuredDataFieldReflection
deriving DecidableEq

/-- Go `strings.Split(s, ",")` on the character list (always returns at least
one group). -/
def splitComma : List Char → List (List Char)
  | [] => [[]]
  | c :: rest =>
    if c = ',' then [] :: splitComma rest
    else
      match splitComma rest with
      | [] => [[c]]
      | g :: gs => (c :: g) :: gs

/-- Go `strings.Split(fieldTag, ",")`. -/
def splitOnComma (s : String) : List String := (splitComma s.data).map String.mk

/-- Is `c` in Go's regexp whitespace class `\s` = `[\t\n\f\r ]`? -/
def isGoSpace (c : Char) : Bool :=
  c = ' ' || c = '\t' || c = '\n' || c = '\x0c' || c = '\r'

/-- `reflect.go:92`: matching of `sdRegexp = ^(\d+@\S+)( (.*))?$` against a
field name; on a match returns (submatch 1, submatch 3), i.e. the element ID
and the parameter name (the latter empty when the optional group is absent). -/
def sdMatch (s : String) : Option (String × String) :=
  let cs := s.data
  let digits := cs.takeWhile Char.isDigit
  let rest1 := cs.drop digits.length
  if digits = [] then none
  else
    match rest1 with
    | '@' :: rest2 =>
      let tok := rest2.takeWhile (fun c => !isGoSpace c)
      let rest3 := rest2.drop tok.length
      if tok = [] then none
      else
        match rest3 with
        | [] => some (String.mk (digits ++ '@' :: tok), "")
        | ' ' :: rest4 => some (String.mk (digits ++ '@' :: tok), String.mk rest4)
        | _ => none
    | _ => none

/-- `reflect.go:190`: derive a parameter name from the field name by
lowercasing the first character (`strings.ToLower(field.Name[0:1]) +
field.Name[1:]`; field names are identifiers, so taking the first character
matches taking the first byte). -/
def lowerFirst (s : String) : String :=
  match s.data with
  | [] => ""
  | c :: rest => String.mk (c.toLower :: rest)

/-- `reflect.go:193-203`: the tag-attribute loop.  Note the source iterates
`tagAttr` over the attributes but switches on `tagParts[1]` (here `attr1`, the
first attribute) at every iteration; `tagAttr` appears only in the panic
message.  A panic is modelled as `Except.error`. -/
def applyAttrs (attr1 : String) (fieldName typeName : String) :
    List String → StructuredDataFieldReflection →
    Except String StructuredDataFieldReflection
  | [], fr => .ok fr
  | tagAttr :: rest, fr =>
    if attr1 = "omitempty" then
      applyAttrs attr1 fieldName typeName rest { fr with OmitEmpty := true }
    else
      .error ("unknown tag " ++ tagAttr ++ " on field " ++ fieldName ++ " of " ++ typeName)

/-- `reflect.go:173-191`: build one structured-data field descriptor before
attribute processing: name from the tag (or element ID and name via the
regexp, or derived from the field name), element ID defaulting to the type's
declared default or the hard-coded fallback. -/
def buildSDFR (r : Reflection) (fieldIndex : Nat) (field : StructField)
    (tagParts : List String) : StructuredDataFieldReflection :=
  let fr : StructuredDataFieldReflection :=
    { FieldIndex := (fieldIndex : Int), OmitEmpty := false,
      FieldName := tagParts.getD 0 "",
      SdID := if r.SDIDDefault ≠ "" then r.SDIDDefault else defaultStructuredDataID }
  let fr :=
    match sdMatch fr.FieldName with
    | some (sdid, name) => { fr with SdID := sdid, FieldName := name }
    | none => fr
  if fr.FieldName = "" then { fr with FieldName := lowerFirst field.Name } else fr

/-- The `default` case of the field switch, `reflect.go:156-207`: skip
untagged unexported fields, recognize the `,message` body marker, otherwise
build a structured-data field descriptor via `buildSDFR`, process its tag
attributes, and append it. -/
def reflectSDField (t : GoType) (r : Reflection) (fieldIndex : Nat) (field : StructField) :
    Except String Reflection :=
  let fieldTag := field.Tag
  if fieldTag = "" ∧ field.PkgPath ≠ "" then .ok r
  else
    let tagParts := splitOnComma fieldTag
    if tagParts.length > 1 ∧ tagParts.getD 0 "" = "" ∧ tagParts.getD 1 "" = "message" then
      .ok { r with MessageFieldIndex := (fieldIndex : Int) }
    else
      let fr := buildSDFR r fieldIndex field tagParts
      let frE :=
        if tagParts.length > 1 then
          applyAttrs (tagParts.getD 1 "") field.Name t.Name (tagParts.drop 1) fr
        else .ok fr
      match frE with
      | .error e => .error e
      | .ok fr =>
        .ok { r with StructuredDataFieldReflections :=
                r.StructuredDataFieldReflections ++ [fr] }

/-- The body of the loop of `reflect.go:112-208` for one field at index
`fieldIndex`: classify the field by name, or hand it to `reflectSDField`.
Panics (unknown Severity/Facility tag value, unknown tag attribute) become
`Except.error`. -/
def reflectField (t : GoType) (r : Reflection) (fieldIndex : Nat) (field : StructField) :
    Except String Reflection :=
  let fieldTag := field.Tag
  if field.Name = "Severity" then
    let r := { r with SeverityFieldIndex := (fieldIndex : Int) }
    if fieldTag ≠ "" then
      match lookupName severityNames fieldTag with
      | some severity => .ok { r with SeverityDefault := severity }
      | none => .error "invalid tag on Severity field"
    else .ok r
  else if field.Name = "Facility" then
    let r := { r with FacilityFieldIndex := (fieldIndex : Int) }
    if fieldTag ≠ "" then
      match lookupName facilityNames fieldTag with
      | some facility => .ok { r with FacilityDefault := facility }
      | none => .error "invalid tag on Facility field"
    else .ok r
  else if field.Name = "Timestamp" then
    .ok { r with TimestampFieldIndex := (fieldIndex : Int) }
  else if field.Name = "Hostname" then
    .ok { r with HostnameFieldIndex := (fieldIndex : Int) }
  else if field.Name = "AppName" then
    let r := { r with AppNameFieldIndex := (fieldIndex : Int) }
    if fieldTag ≠ "" then .ok { r with AppNameDefault := fieldTag } else .ok r
  else if field.Name = "ProcessID" then
    .ok { r with ProcessIDFieldIndex := (fieldIndex : Int) }
  else if field.Name = "MessageID" then
    let r := { r with MessageIDFieldIndex := (fieldIndex : Int) }
    if fieldTag ≠ "" then .ok { r with MessageIDDefault := fieldTag } else .ok r
  else if field.Name = "SDID" then
    if fieldTag ≠ "" then .ok { r with SDIDDefault := fieldTag } else .ok r
  else if field.Name = "Message" then
    .ok { r with MessageFieldIndex := (fieldIndex : Int) }
  else reflectSDField t r fieldIndex field

/-- The field loop of `reflect.go:112`: process the fields in declaration
order, numbering them from `fieldIndex`. -/
def reflectFields (t : GoType) : Nat → List StructField → Reflection →
    Except String Reflection
  | _, [], r => .ok r
  | fieldIndex, f :: fs, r =>
    match reflectField t r fieldIndex f with
    | .error e => .error e
    | .ok r => reflectFields t (fieldIndex + 1) fs r

/-- The initial `reflection` value of `reflect.go:95-110`. -/
def initReflection (t : GoType) : Reflection :=
  { Typ := t,
    SeverityFieldIndex := -1, SeverityDefault := defaultSeverity,
    FacilityFieldIndex := -1, FacilityDefault := defaultFacility,
    TimestampFieldIndex := -1, HostnameFieldIndex := -1,
    AppNameFieldIndex := -1, AppNameDefault := defaultAppName,
    ProcessIDFieldIndex := -1, MessageIDFieldIndex := -1,
    MessageIDDefault := t.Name, MessageFieldIndex := -1,
    SDIDDefault := "",
    StructuredDataFieldReflections := [] }

/-- `reflect.go:94`: `reflectImpl` — analyze a record type into its FieldMap;
a panic is modelled as `Except.error`. -/
def reflectImpl (t : GoType) : Except String Reflection :=
  reflectFields t 0 t.Fields (initReflection t)

/-- `reflect.go:72`: `reflectionCache`, a Go `map[string][]*reflection`
modelled as an association list keyed by type name. -/
abbrev ReflectionCache : Type := List (String × List Reflection)

/-- Map read `reflectionCache[t.Name()]`. -/
def cacheLookup (c : ReflectionCache) (k : String) : Option (List Reflection) :=
  (c.find? (fun p => p.1 == k)).map (fun p => p.2)

/-- Map write `reflectionCache[k] = v`. -/
def cacheInsert : ReflectionCache → String → List Reflection → ReflectionCache
  | [], k, v => [(k, v)]
  | p :: rest, k, v => if p.1 = k then (k, v) :: rest else p :: cacheInsert rest k v

/-- `reflect.go:74`: `Reflect` — look the type's name up in the cache, scan
the bucket for the identical type, otherwise compute via `reflectImpl` and
store.  The mutable global cache is threaded explicitly: the function returns
the reflection together with the updated cache. -/
def Reflect (cache : ReflectionCache) (t : GoType) :
    Except String (Reflection × ReflectionCache) :=
  match cacheLookup cache t.Name with
  | none =>
    match reflectImpl t with
    | .error e => .error e
    | .ok r => .ok (r, cacheInsert cache t.Name [r])
  | some reflectionList =>
    match reflectionList.find? (fun r => r.Typ == t) with
    | some r => .ok (r, cache)
    | none =>
      match reflectImpl t with
      | .error e => .error e
      | .ok r => .ok (r, cacheInsert cache t.Name (reflectionList ++ [r]))

/-! ### Specification-side definitions

These definitions restate, in the words of the specification and of the
claims, what the encoder and validator are supposed to produce; the theorems
below compare them with the embedded source functions. -/

/-- Claim C5's description of escaping: each backslash, double-quote and
closing-bracket byte is preceded by a backslash, every other byte passes
through unchanged, in order. -/
def specEscape (s : List Nat) : List Nat :=
  (s.map (fun c => if isEscaped c then [92, c] else [c])).flatten

/-- Claim C6's manual unescaping: remove each escaping backslash that precedes
a backslash, double-quote, or closing bracket. -/
def unescapeSDParam : List Nat → List Nat
  | [] => []
  | [c] => [c]
  | c1 :: c2 :: rest =>
    if c1 = 92 && isEscaped c2 then c2 :: unescapeSDParam rest
    else c1 :: unescapeSDParam (c2 :: rest)

/-- Spec rendering of one structured-data parameter: ` name="escaped-value"`. -/
def specRenderParam (p : SDParam) : List Nat :=
  [32] ++ p.Name ++ [61, 34] ++ escapeSDParam p.Value ++ [34]

/-- Spec rendering of one structured-data element:
`[ID param1="v1" param2="v2" ...]`. -/
def specRenderElement (e : SDElement) : List Nat :=
  [91] ++ e.ID ++ (e.Parameters.map specRenderParam).flatten ++ [93]

/-- Claim C3's description of the encoded form: `<PRI>1 TIMESTAMP HOST APPNAME
PROCID MSGID SD`, `-` for empty header fields and for an empty element list,
elements concatenated in order with no separator, and ` MESSAGE` appended only
when the body is non-empty. -/
def specEncode (m : Message) : List Nat :=
  [60] ++ intToDec (Int.lor m.Severity (m.Facility <<< (3 : Int))) ++ [62, 49, 32]
    ++ m.Timestamp.rfc3339NanoBytes ++ [32]
    ++ nilify m.Hostname ++ [32] ++ nilify m.AppName ++ [32]
    ++ nilify m.ProcessID ++ [32] ++ nilify m.MessageID ++ [32]
    ++ (if m.StructuredData = [] then [45]
        else (m.StructuredData.map specRenderElement).flatten)
    ++ (if m.Message = [] then [] else [32] ++ m.Message)

/-- Claim C4's violation condition for one header string with its length
ceiling: a character outside printable US-ASCII 33–126, or too many bytes. -/
def hdrFieldViolation (s : List Nat) (ceiling : Nat) : Bool :=
  (decodeRunes s).any (fun ch => ch < 33 || 126 < ch) || ceiling < s.length

/-- Claim C4's violation condition for one structured-data parameter: a name
violating the sd-name rule, or a value that is not valid UTF-8. -/
def sdParamBad (p : SDParam) : Bool :=
  !isValidSdName p.Name || !utf8Valid p.Value

/-- Claim C4's violation condition for one structured-data element: an ID
violating the sd-name rule, or a bad parameter. -/
def sdElemBad (e : SDElement) : Bool :=
  !isValidSdName e.ID || e.Parameters.any sdParamBad

/-- Claim C4's list of validation-rule violations. -/
def specViolation (m : Message) : Bool :=
  decide (m.Severity < 0) || decide (8 < m.Severity) ||
  decide (m.Facility < 0) || decide (23 < m.Facility) ||
  hdrFieldViolation m.Hostname 255 ||
  hdrFieldViolation m.AppName 48 ||
  hdrFieldViolation m.ProcessID 128 ||
  hdrFieldViolation m.MessageID 32 ||
  m.StructuredData.any sdElemBad

/-- Claim C4's requirement on a returned error: it names a property of the
message that actually violates its rule, and carries that property's value. -/
def errorNamesViolation (m : Message) (e : ErrorInvalidValue) : Bool :=
  (decide (e.Property = "Severity") && decide (e.Value = GoValue.int m.Severity)
    && (decide (m.Severity < 0) || decide (8 < m.Severity))) ||
  ((decide (e.Property = "Facility") && decide (e.Value = GoValue.int m.Facility)
    && (decide (m.Facility < 0) || decide (23 < m.Facility))) ||
  ((decide (e.Property = "Hostname") && decide (e.Value = GoValue.str m.Hostname)
    && hdrFieldViolation m.Hostname 255) ||
  ((decide (e.Property = "AppName") && decide (e.Value = GoValue.str m.AppName)
    && hdrFieldViolation m.AppName 48) ||
  ((decide (e.Property = "ProcessID") && decide (e.Value = GoValue.str m.ProcessID)
    && hdrFieldViolation m.ProcessID 128) ||
  ((decide (e.Property = "MessageID") && decide (e.Value = GoValue.str m.MessageID)
    && hdrFieldViolation m.MessageID 32) ||
  ((decide (e.Property = "StructuredData/ID") &&
    m.StructuredData.any (fun el =>
      decide (e.Value = GoValue.str el.ID) && !isValidSdName el.ID)) ||
  ((decide (e.Property = "StructuredData/Name") &&
    m.StructuredData.any (fun el => el.Parameters.any (fun p =>
      decide (e.Value = GoValue.str p.Name) && !isValidSdName p.Name))) ||
  (decide (e.Property = "StructuredData/Value") &&
    m.StructuredData.any (fun el => el.Parameters.any (fun p =>
      decide (e.Value = GoValue.str p.Value) && !utf8Valid p.Value))))))))))

/-- `incrFromB i l`: the integers of `l` are strictly increasing and all at
least `i`; used to state that structured-data descriptors appear in field
declaration order. -/
def incrFromB : Int → List Int → Bool
  | _, [] => true
  | i, a :: l => decide (i ≤ a) && incrFromB (a + 1) l

/-- The reflection-cache invariant: every cached entry was produced by
`reflectImpl` on its own type and sits in the bucket of that type's name. -/
def CacheGood (c : ReflectionCache) : Prop :=
  ∀ p ∈ c, ∀ r ∈ p.2, reflectImpl r.Typ = .ok r ∧ r.Typ.Name = p.1

/-! ### Concrete fixtures -/

/-- The RFC 5424 §8 example message (spec §8 end-to-end example). -/
def example8 : Message :=
  { Severity := 2, Facility := 4,
    Timestamp := ⟨gostr "2003-10-11T22:14:15.003Z"⟩,
    Hostname := gostr "mymachine.example.com",
    AppName := gostr "su", ProcessID := [], MessageID := gostr "ID47",
    StructuredData := [],
    Message := gostr "'su root' failed for lonvick on /dev/pts/8" }

/-- A 33-character structured-data name (one more than the RFC ceiling). -/
def longSdName : List Nat := gostr "aaaaaaaaaaaaaaaaaaaaaaaaaaaaaaaaa"

/-- A message whose only structured-data element has the 33-character ID. -/
def longSdNameMsg : Message :=
  { Severity := 1, Facility := 1,
    Timestamp := ⟨gostr "2003-10-11T22:14:15.003Z"⟩,
    Hostname := gostr "host", AppName := gostr "ap", ProcessID := [],
    MessageID := gostr "ID1",
    StructuredData := [⟨longSdName, []⟩],
    Message := [] }

/-- A record type whose field tag carries the unrecognized attribute `bogus`
in the third position, after `omitempty`. -/
def bogusAttrType : GoType :=
  ⟨"Rec", [⟨"Count", "count,omitempty,bogus", ""⟩]⟩

/-- The FieldMap the code computes for `bogusAttrType` (no error: the bogus
attribute is silently accepted and `omitempty` applied). -/
def bogusAttrReflection : Reflection :=
  { Typ := bogusAttrType,
    SeverityFieldIndex := -1, SeverityDefault := 6,
    FacilityFieldIndex := -1, FacilityDefault := 16,
    TimestampFieldIndex := -1, HostnameFieldIndex := -1,
    AppNameFieldIndex := -1, AppNameDefault := "app",
    ProcessIDFieldIndex := -1, MessageIDFieldIndex := -1,
    MessageIDDefault := "Rec", MessageFieldIndex := -1,
    SDIDDefault := "",
    StructuredDataFieldReflections := [⟨0, true, "count", "0@local"⟩] }

/-- A message that fails validation (Severity 9). -/
def badSeverityMsg : Message :=
  { example8 with Severity := 9 }

/-- Two record types with identical fields but different names. -/
def namedTypeA : GoType := ⟨"A", []⟩

/-- See `namedTypeA`. -/
def namedTypeB : GoType := ⟨"B", []⟩

/-- A record type with two structured-data fields, for exercising `Reflect`. -/
def twoFieldType : GoType :=
  ⟨"Rec2", [⟨"A", "1@x aname", ""⟩, ⟨"B", "", ""⟩]⟩

/-- The FieldMap the code computes for `twoFieldType`. -/
def twoFieldReflection : Reflection :=
  { Typ := twoFieldType,
    SeverityFieldIndex := -1, SeverityDefault := 6,
    FacilityFieldIndex := -1, FacilityDefault := 16,
    TimestampFieldIndex := -1, HostnameFieldIndex := -1,
    AppNameFieldIndex := -1, AppNameDefault := "app",
    ProcessIDFieldIndex := -1, MessageIDFieldIndex := -1,
    MessageIDDefault := "Rec2", MessageFieldIndex := -1,
    SDIDDefault := "",
    StructuredDataFieldReflections :=
      [⟨0, false, "aname", "1@x"⟩, ⟨1, false, "b", "0@local"⟩] }

/-- The cache after reflecting `twoFieldType` into an empty cache. -/
def twoFieldCache : ReflectionCache := [("Rec2", [twoFieldReflection])]

/-- A message with an empty structured-data element ID and an empty parameter
name (both accepted by the sd-name rule). -/
def emptySdNameMsg : Message :=
  { Severity := 0, Facility := 0,
    Timestamp := ⟨gostr "2003-10-11T22:14:15.003Z"⟩,
    Hostname := [], AppName := [], ProcessID := [], MessageID := [],
    StructuredData := [⟨[], []⟩, ⟨gostr "x", [⟨[], gostr "value"⟩]⟩],
    Message := [] }

/-! ### Lemmas about escaping -/

theorem specEscape_nil : specEscape [] = [] := rfl

theorem specEscape_cons (c : Nat) (l : List Nat) :
    specEscape (c :: l) = (if isEscaped c then [92, c] else [c]) ++ specEscape l := by
  simp [specEscape]

theorem specEscape_id (s : List Nat) (h : ∀ c ∈ s, isEscaped c = false) :
    specEscape s = s := by
  induction s with
  | nil => rfl
  | cons c cs ih =>
    rw [specEscape_cons, if_neg]
    · rw [ih]
      · rfl
      · intro x hx
        exact h x (List.mem_cons_of_mem c hx)
    · simp [h c (List.mem_cons_self c cs)]

theorem escape_eq_spec (s : List Nat) : escapeSDParam s = specEscape s := by
  by_cases h : (s.filter (fun c => isEscaped c)).length = 0
  · simp only [escapeSDParam, h, if_true]
    rw [specEscape_id]
    intro c hc
    by_contra hne
    have hmem : c ∈ s.filter (fun c => isEscaped c) := by
      rw [List.mem_filter]
      exact ⟨hc, by simpa using hne⟩
    rw [List.length_eq_zero] at h
    rw [h] at hmem
    exact absurd hmem (List.not_mem_nil c)
  · simp only [escapeSDParam, h, if_false]
    rfl

theorem specEscape_cons_head (c : Nat) (l : List Nat) :
    ∃ d t, specEscape (c :: l) = d :: t := by
  rw [specEscape_cons]
  by_cases h : isEscaped c = true
  · exact ⟨92, c :: specEscape l, by simp [h]⟩
  · exact ⟨c, specEscape l, by simp [h]⟩

theorem unescape_spec (s : List Nat) : unescapeSDParam (specEscape s) = s := by
  induction s with
  | nil => rfl
  | cons c cs ih =>
    by_cases hc : isEscaped c = true
    · rw [specEscape_cons, if_pos hc]
      show unescapeSDParam (92 :: c :: specEscape cs) = c :: cs
      rw [unescapeSDParam]
      have h92 : isEscaped 92 = true := rfl
      simp only [hc, Bool.and_true, decide_True, ih]
      simp
    · rw [specEscape_cons, if_neg (by simp [hc])]
      show unescapeSDParam (c :: specEscape cs) = c :: cs
      have hc92 : c ≠ 92 := by
        intro h
        rw [h] at hc
        exact hc rfl
      cases cs with
      | nil => rfl
      | cons c' cs' =>
        obtain ⟨d, tl, hd⟩ := specEscape_cons_head c' cs'
        rw [hd, unescapeSDParam]
        rw [if_neg (by simp [hc92])]
        rw [← hd, ih]

/-- C5: for every input string, `escapeSDParam` returns the string in which
each backslash, double-quote and closing-bracket byte is preceded by a
backslash and every other byte passes through unchanged in order
(`specEscape`); when the input contains none of those bytes it is returned
unchanged. -/
theorem c5_escaper (s : List Nat) :
    escapeSDParam s = specEscape s
      ∧ ((∀ c ∈ s, isEscaped c = false) → escapeSDParam s = s) := by
  refine ⟨escape_eq_spec s, fun h => ?_⟩
  rw [escape_eq_spec s, specEscape_id s h]

theorem c5_escaper_witness :
    escapeSDParam [92, 34, 93, 97] = specEscape [92, 34, 93, 97]
      ∧ escapeSDParam [104, 105] = [104, 105] :=
  ⟨(c5_escaper [92, 34, 93, 97]).1,
   (c5_escaper [104, 105]).2 (by decide)⟩

/-- C6: escaping round-trips: removing each escaping backslash that precedes a
backslash, double-quote, or closing bracket from the output of
`escapeSDParam` recovers the original string. -/
theorem c6_roundtrip (s : List Nat) : unescapeSDParam (escapeSDParam s) = s := by
  rw [escape_eq_spec s]
  exact unescape_spec s

theorem c6_roundtrip_witness :
    unescapeSDParam (escapeSDParam [92, 34, 93, 120]) = [92, 34, 93, 120] :=
  c6_roundtrip [92, 34, 93, 120]

/-! ### C9, C1, C2 -/

/-- C9: the empty string is accepted as a structured-data element ID and as a
parameter name: `isValidSdName ""` holds, and a message containing an
empty-ID element and an empty-named parameter passes validation, the element
encoding as `[]` and the parameter as ` ="value"`. -/
theorem c9_empty_sd_name :
    isValidSdName [] = true
      ∧ assertValid emptySdNameMsg = none
      ∧ MarshalBinary emptySdNameMsg =
          .ok (gostr "<0>1 2003-10-11T22:14:15.003Z - - - - [][x =\"value\"]") := by
  refine ⟨rfl, by decide, by decide⟩

/-- C1 counterexample: a message whose structured-data element ID is 33
characters long passes `assertValid`, and `MarshalBinary` succeeds on it —
the default configuration of this code (`allowLongSdNames = true`) does not
reject names longer than 32 characters. -/
theorem c1_counterexample :
    longSdName.length = 33
      ∧ assertValid longSdNameMsg = none
      ∧ ∃ bs, MarshalBinary longSdNameMsg = Except.ok bs :=
  ⟨by decide, by decide, ⟨_, rfl⟩⟩

/-- C1 amended: with `allowLongSdNames` fixed to `true` as in this code,
`isValidSdName` accepts any name, of any length beyond 32, whose characters
are printable US-ASCII other than `=`, `]`, `"`; length is never a reason for
rejection. -/
theorem c1_long_names_accepted (s : List Nat) (hlen : 32 < s.length)
    (hchars : (decodeRunes s).all
      (fun ch => !(ch < 33 || 126 < ch) && !(ch = 61 || ch = 93 || ch = 34)) = true) :
    isValidSdName s = true := by
  unfold isValidSdName allowLongSdNames
  simpa using hchars

theorem c1_long_names_accepted_witness :
    32 < longSdName.length ∧ isValidSdName longSdName = true :=
  ⟨by decide, c1_long_names_accepted longSdName (by decide) (by decide)⟩

/-- The attribute loop panics when the unrecognized attribute is in the first
position (evidence that the unknown-attribute check was intended). -/
theorem reflectImpl_rejects_first_bogus_attr :
    reflectImpl ⟨"Bad", [⟨"X", "x,bogus,omitempty", ""⟩]⟩ =
      .error "unknown tag bogus on field X of Bad" := by decide

/-- C2: the code does NOT raise an error for the unrecognized attribute
`bogus` in the third position of the tag `count,omitempty,bogus`: because the
loop at `reflect.go:194-202` switches on `tagParts[1]` instead of the loop
variable `tagAttr`, registration succeeds, silently accepting the attribute
(and setting `OmitEmpty`), where the specification requires a panic. -/
theorem c2_bogus_attr_accepted :
    reflectImpl bogusAttrType = .ok bogusAttrReflection := by decide

/-! ### C10: validation ignores the timestamp -/

/-- C10: validation imposes no constraint on `Timestamp`: two messages that
differ only in their timestamp validate identically, and `MarshalBinary`
returns an error for one exactly when it does for the other (with the same
error), so no error is ever on account of the timestamp. -/
theorem c10_timestamp_unconstrained (m : Message) (t t' : GoTime) :
    assertValid { m with Timestamp := t } = assertValid { m with Timestamp := t' }
      ∧ ∀ e, (MarshalBinary { m with Timestamp := t } = .error e
          ↔ MarshalBinary { m with Timestamp := t' } = .error e) := by
  have h : assertValid { m with Timestamp := t } = assertValid { m with Timestamp := t' } := rfl
  refine ⟨h, fun e => ?_⟩
  show (MarshalBinary { m with Timestamp := t } = .error e
      ↔ MarshalBinary { m with Timestamp := t' } = .error e)
  unfold MarshalBinary
  rw [h]
  cases hv : assertValid { m with Timestamp := t' } with
  | some err => exact Iff.rfl
  | none => simp

theorem c10_timestamp_unconstrained_witness :
    assertValid { example8 with Timestamp := ⟨gostr "2003-10-11T22:14:15.003Z"⟩ }
      = assertValid { example8 with Timestamp := ⟨gostr "1985-04-12T23:20:50.52Z"⟩ } :=
  (c10_timestamp_unconstrained example8 ⟨gostr "2003-10-11T22:14:15.003Z"⟩
    ⟨gostr "1985-04-12T23:20:50.52Z"⟩).1

/-! ### Lemmas about validation (C4) -/

theorem any_eq_not_all_not {α : Type} (p : α → Bool) (l : List α) :
    l.any p = !(l.all fun x => !p x) := by
  induction l with
  | nil => rfl
  | cons a l ih => simp [List.any_cons, List.all_cons, ih, Bool.not_and]

theorem hdrViolation_eq (s : List Nat) (c : Nat) :
    hdrFieldViolation s c = (!isPrintableUsASCII s || decide (c < s.length)) := by
  unfold hdrFieldViolation isPrintableUsASCII
  rw [any_eq_not_all_not]

theorem validateParams_none_iff (ps : List SDParam) :
    validateParams ps = none ↔ ps.any sdParamBad = false := by
  induction ps with
  | nil => simp [validateParams]
  | cons p rest ih =>
    simp only [validateParams, List.any_cons]
    by_cases h1 : isValidSdName p.Name = true
    · by_cases h2 : utf8Valid p.Value = true
      · rw [if_neg (by simp [h1]), if_neg (by simp [h2])]
        simp [sdParamBad, h1, h2, ih]
      · rw [if_neg (by simp [h1]), if_pos (by simp [eq_false_of_ne_true h2])]
        simp [sdParamBad, eq_false_of_ne_true h2]
    · rw [if_pos (by simp [eq_false_of_ne_true h1])]
      simp [sdParamBad, eq_false_of_ne_true h1]

theorem validateElements_none_iff (l : List SDElement) :
    validateElements l = none ↔ l.any sdElemBad = false := by
  induction l with
  | nil => simp [validateElements]
  | cons el rest ih =>
    simp only [validateElements, List.any_cons]
    by_cases h1 : isValidSdName el.ID = true
    · rw [if_neg (by simp [h1])]
      cases hvp : validateParams el.Parameters with
      | some err =>
        have hbad : el.Parameters.any sdParamBad = true := by
          cases hb : el.Parameters.any sdParamBad
          · exact absurd hvp (by simp [(validateParams_none_iff el.Parameters).2 hb])
          · rfl
        simp [sdElemBad, hbad]
      | none =>
        have hok : el.Parameters.any sdParamBad = false :=
          (validateParams_none_iff el.Parameters).1 hvp
        simp [sdElemBad, h1, hok, ih]
    · rw [if_pos (by simp [eq_false_of_ne_true h1])]
      simp [sdElemBad, eq_false_of_ne_true h1]

theorem assertValid_none_iff (m : Message) :
    assertValid m = none ↔ specViolation m = false := by
  unfold assertValid specViolation
  rw [hdrViolation_eq, hdrViolation_eq, hdrViolation_eq, hdrViolation_eq]
  by_cases h1 : m.Severity < 0 ∨ m.Severity > 8
  · rw [if_pos h1]
    rcases h1 with h | h <;> exact iff_of_false (by simp) (by simp [h])
  · rw [if_neg h1]
    push_neg at h1
    by_cases h2 : m.Facility < 0 ∨ m.Facility > 23
    · rw [if_pos h2]
      rcases h2 with h | h <;> exact iff_of_false (by simp) (by simp [h])
    · rw [if_neg h2]
      push_neg at h2
      by_cases h3 : isPrintableUsASCII m.Hostname = true
      · rw [if_neg (by simp [h3])]
        by_cases h4 : m.Hostname.length > 255
        · rw [if_pos h4]
          exact iff_of_false (by simp) (by simp [h4])
        · rw [if_neg h4]
          by_cases h5 : isPrintableUsASCII m.AppName = true
          · rw [if_neg (by simp [h5])]
            by_cases h6 : m.AppName.length > 48
            · rw [if_pos h6]
              exact iff_of_false (by simp) (by simp [h6])
            · rw [if_neg h6]
              by_cases h7 : isPrintableUsASCII m.ProcessID = true
              · rw [if_neg (by simp [h7])]
                by_cases h8 : m.ProcessID.length > 128
                · rw [if_pos h8]
                  exact iff_of_false (by simp) (by simp [h8])
                · rw [if_neg h8]
                  by_cases h9 : isPrintableUsASCII m.MessageID = true
                  · rw [if_neg (by simp [h9])]
                    by_cases h10 : m.MessageID.length > 32
                    · rw [if_pos h10]
                      exact iff_of_false (by simp) (by simp [h10])
                    · rw [if_neg h10]
                      have e1 : ¬ m.Severity < 0 := not_lt.mpr h1.1
                      have e2 : ¬ 8 < m.Severity := not_lt.mpr h1.2
                      have e3 : ¬ m.Facility < 0 := not_lt.mpr h2.1
                      have e4 : ¬ 23 < m.Facility := not_lt.mpr h2.2
                      rw [validateElements_none_iff]
                      simp [e1, e2, e3, e4, h3, h5, h7, h9, h4, h6, h8, h10]
                  · rw [if_pos (by simp [eq_false_of_ne_true h9])]
                    exact iff_of_false (by simp) (by simp [eq_false_of_ne_true h9])
              · rw [if_pos (by simp [eq_false_of_ne_true h7])]
                exact iff_of_false (by simp) (by simp [eq_false_of_ne_true h7])
          · rw [if_pos (by simp [eq_false_of_ne_true h5])]
            exact iff_of_false (by simp) (by simp [eq_false_of_ne_true h5])
      · rw [if_pos (by simp [eq_false_of_ne_true h3])]
        exact iff_of_false (by simp) (by simp [eq_false_of_ne_true h3])

theorem validateParams_some (ps : List SDParam) (e : ErrorInvalidValue)
    (h : validateParams ps = some e) :
    (∃ p, p ∈ ps ∧ e = InvalidValue "StructuredData/Name" (.str p.Name)
        ∧ isValidSdName p.Name = false)
    ∨ (∃ p, p ∈ ps ∧ e = InvalidValue "StructuredData/Value" (.str p.Value)
        ∧ utf8Valid p.Value = false) := by
  induction ps with
  | nil => cases h
  | cons p rest ih =>
    simp only [validateParams] at h
    by_cases h1 : isValidSdName p.Name = true
    · rw [if_neg (by simp [h1])] at h
      by_cases h2 : utf8Valid p.Value = true
      · rw [if_neg (by simp [h2])] at h
        rcases ih h with ⟨q, hq, he⟩ | ⟨q, hq, he⟩
        · exact Or.inl ⟨q, List.mem_cons_of_mem p hq, he⟩
        · exact Or.inr ⟨q, List.mem_cons_of_mem p hq, he⟩
      · rw [if_pos (by simp [eq_false_of_ne_true h2])] at h
        injection h with h
        exact Or.inr ⟨p, List.mem_cons_self p rest, h.symm, eq_false_of_ne_true h2⟩
    · rw [if_pos (by simp [eq_false_of_ne_true h1])] at h
      injection h with h
      exact Or.inl ⟨p, List.mem_cons_self p rest, h.symm, eq_false_of_ne_true h1⟩

theorem validateElements_some (l : List SDElement) (e : ErrorInvalidValue)
    (h : validateElements l = some e) :
    (∃ el, el ∈ l ∧ e = InvalidValue "StructuredData/ID" (.str el.ID)
        ∧ isValidSdName el.ID = false)
    ∨ (∃ el, el ∈ l ∧ ∃ p, p ∈ el.Parameters
        ∧ e = InvalidValue "StructuredData/Name" (.str p.Name)
        ∧ isValidSdName p.Name = false)
    ∨ (∃ el, el ∈ l ∧ ∃ p, p ∈ el.Parameters
        ∧ e = InvalidValue "StructuredData/Value" (.str p.Value)
        ∧ utf8Valid p.Value = false) := by
  induction l with
  | nil => cases h
  | cons el rest ih =>
    simp only [validateElements] at h
    by_cases h1 : isValidSdName el.ID = true
    · rw [if_neg (by simp [h1])] at h
      cases hvp : validateParams el.Parameters with
      | some err =>
        rw [hvp] at h
        simp only [] at h
        injection h with h
        subst h
        rcases validateParams_some _ _ hvp with ⟨p, hp, he, hbad⟩ | ⟨p, hp, he, hbad⟩
        · exact Or.inr (Or.inl ⟨el, List.mem_cons_self el rest, p, hp, he, hbad⟩)
        · exact Or.inr (Or.inr ⟨el, List.mem_cons_self el rest, p, hp, he, hbad⟩)
      | none =>
        rw [hvp] at h
        simp only [] at h
        rcases ih h with ⟨q, hq, he⟩ | ⟨q, hq, p, hp, he⟩ | ⟨q, hq, p, hp, he⟩
        · exact Or.inl ⟨q, List.mem_cons_of_mem el hq, he⟩
        · exact Or.inr (Or.inl ⟨q, List.mem_cons_of_mem el hq, p, hp, he⟩)
        · exact Or.inr (Or.inr ⟨q, List.mem_cons_of_mem el hq, p, hp, he⟩)
    · rw [if_pos (by simp [eq_false_of_ne_true h1])] at h
      injection h with h
      exact Or.inl ⟨el, List.mem_cons_self el rest, h.symm, eq_false_of_ne_true h1⟩

theorem assertValid_some_names (m : Message) (e : ErrorInvalidValue)
    (h : assertValid m = some e) : errorNamesViolation m e = true := by
  unfold assertValid at h
  by_cases h1 : m.Severity < 0 ∨ m.Severity > 8
  · rw [if_pos h1] at h
    injection h with h
    subst h
    simp only [errorNamesViolation, InvalidValue, Bool.or_eq_true, Bool.and_eq_true,
      decide_eq_true_eq]
    exact Or.inl ⟨⟨trivial, trivial⟩, by rcases h1 with h | h <;> simp [h]⟩
  · rw [if_neg h1] at h
    by_cases h2 : m.Facility < 0 ∨ m.Facility > 23
    · rw [if_pos h2] at h
      injection h with h
      subst h
      simp only [errorNamesViolation, InvalidValue, Bool.or_eq_true, Bool.and_eq_true,
        decide_eq_true_eq]
      exact Or.inr (Or.inl ⟨⟨trivial, trivial⟩, by rcases h2 with h | h <;> simp [h]⟩)
    · rw [if_neg h2] at h
      by_cases h3 : isPrintableUsASCII m.Hostname = true
      · rw [if_neg (by simp [h3])] at h
        by_cases h4 : m.Hostname.length > 255
        · rw [if_pos h4] at h
          injection h with h
          subst h
          simp only [errorNamesViolation, InvalidValue, Bool.or_eq_true, Bool.and_eq_true,
            decide_eq_true_eq, hdrViolation_eq]
          exact Or.inr (Or.inr (Or.inl ⟨⟨trivial, trivial⟩, by simp [h4]⟩))
        · rw [if_neg h4] at h
          by_cases h5 : isPrintableUsASCII m.AppName = true
          · rw [if_neg (by simp [h5])] at h
            by_cases h6 : m.AppName.length > 48
            · rw [if_pos h6] at h
              injection h with h
              subst h
              simp only [errorNamesViolation, InvalidValue, Bool.or_eq_true, Bool.and_eq_true,
                decide_eq_true_eq, hdrViolation_eq]
              exact Or.inr (Or.inr (Or.inr (Or.inl ⟨⟨trivial, trivial⟩, by simp [h6]⟩)))
            · rw [if_neg h6] at h
              by_cases h7 : isPrintableUsASCII m.ProcessID = true
              · rw [if_neg (by simp [h7])] at h
                by_cases h8 : m.ProcessID.length > 128
                · rw [if_pos h8] at h
                  injection h with h
                  subst h
                  simp only [errorNamesViolation, InvalidValue, Bool.or_eq_true,
                    Bool.and_eq_true, decide_eq_true_eq, hdrViolation_eq]
                  exact Or.inr (Or.inr (Or.inr (Or.inr (Or.inl ⟨⟨trivial, trivial⟩, by simp [h8]⟩))))
                · rw [if_neg h8] at h
                  by_cases h9 : isPrintableUsASCII m.MessageID = true
                  · rw [if_neg (by simp [h9])] at h
                    by_cases h10 : m.MessageID.length > 32
                    · rw [if_pos h10] at h
                      injection h with h
                      subst h
                      simp only [errorNamesViolation, InvalidValue, Bool.or_eq_true,
                        Bool.and_eq_true, decide_eq_true_eq, hdrViolation_eq]
                      exact Or.inr (Or.inr (Or.inr (Or.inr (Or.inr (Or.inl
                        ⟨⟨trivial, trivial⟩, by simp [h10]⟩)))))
                    · rw [if_neg h10] at h
                      rcases validateElements_some _ _ h with
                        ⟨el, hel, he, hbad⟩ | ⟨el, hel, p, hp, he, hbad⟩ |
                          ⟨el, hel, p, hp, he, hbad⟩
                      · subst he
                        simp only [errorNamesViolation, InvalidValue, Bool.or_eq_true,
                          Bool.and_eq_true, decide_eq_true_eq, List.any_eq_true]
                        exact Or.inr (Or.inr (Or.inr (Or.inr (Or.inr (Or.inr (Or.inl
                          ⟨trivial, el, hel, by simp [hbad]⟩))))))
                      · subst he
                        simp only [errorNamesViolation, InvalidValue, Bool.or_eq_true,
                          Bool.and_eq_true, decide_eq_true_eq, List.any_eq_true]
                        exact Or.inr (Or.inr (Or.inr (Or.inr (Or.inr (Or.inr (Or.inr (Or.inl
                          ⟨trivial, el, hel, p, hp, by simp [hbad]⟩)))))))
                      · subst he
                        simp only [errorNamesViolation, InvalidValue, Bool.or_eq_true,
                          Bool.and_eq_true, decide_eq_true_eq, List.any_eq_true]
                        exact Or.inr (Or.inr (Or.inr (Or.inr (Or.inr (Or.inr (Or.inr (Or.inr
                          ⟨trivial, el, hel, p, hp, by simp [hbad]⟩)))))))
                  · rw [if_pos (by simp [eq_false_of_ne_true h9])] at h
                    injection h with h
                    subst h
                    simp only [errorNamesViolation, InvalidValue, Bool.or_eq_true,
                      Bool.and_eq_true, decide_eq_true_eq, hdrViolation_eq]
                    exact Or.inr (Or.inr (Or.inr (Or.inr (Or.inr (Or.inl
                      ⟨⟨trivial, trivial⟩, by simp [eq_false_of_ne_true h9]⟩)))))
              · rw [if_pos (by simp [eq_false_of_ne_true h7])] at h
                injection h with h
                subst h
                simp only [errorNamesViolation, InvalidValue, Bool.or_eq_true,
                  Bool.and_eq_true, decide_eq_true_eq, hdrViolation_eq]
                exact Or.inr (Or.inr (Or.inr (Or.inr (Or.inl
                  ⟨⟨trivial, trivial⟩, by simp [eq_false_of_ne_true h7]⟩))))
          · rw [if_pos (by simp [eq_false_of_ne_true h5])] at h
            injection h with h
            subst h
            simp only [errorNamesViolation, InvalidValue, Bool.or_eq_true,
              Bool.and_eq_true, decide_eq_true_eq, hdrViolation_eq]
            exact Or.inr (Or.inr (Or.inr (Or.inl
              ⟨⟨trivial, trivial⟩, by simp [eq_false_of_ne_true h5]⟩)))
      · rw [if_pos (by simp [eq_false_of_ne_true h3])] at h
        injection h with h
        subst h
        simp only [errorNamesViolation, InvalidValue, Bool.or_eq_true,
          Bool.and_eq_true, decide_eq_true_eq, hdrViolation_eq]
        exact Or.inr (Or.inr (Or.inl ⟨⟨trivial, trivial⟩, by simp [eq_false_of_ne_true h3]⟩))

/-- C4: `MarshalBinary` returns an invalid-value error if and only if the
message violates one of the validation rules of `specViolation`; any returned
error names a property of the message that actually violates its rule and
carries that property's value; and when it returns bytes the message violates
no rule (validation failure produces no encoding). -/
theorem c4_invalid_value_errors (m : Message) :
    ((∃ e, MarshalBinary m = .error e) ↔ specViolation m = true)
      ∧ (∀ e, MarshalBinary m = .error e → errorNamesViolation m e = true)
      ∧ (∀ bs, MarshalBinary m = .ok bs → specViolation m = false) := by
  cases hv : assertValid m with
  | none =>
    have hviol : specViolation m = false := (assertValid_none_iff m).1 hv
    refine ⟨⟨?_, ?_⟩, ?_, fun bs _ => hviol⟩
    · rintro ⟨e, he⟩
      unfold MarshalBinary at he
      rw [hv] at he
      simp at he
    · intro htrue
      rw [hviol] at htrue
      cases htrue
    · intro e he
      unfold MarshalBinary at he
      rw [hv] at he
      simp at he
  | some err =>
    have hne : ¬ assertValid m = none := by simp [hv]
    have hviol : specViolation m = true := by
      cases hsv : specViolation m
      · exact absurd ((assertValid_none_iff m).2 hsv) hne
      · rfl
    have hmb : MarshalBinary m = .error err := by
      unfold MarshalBinary
      rw [hv]
    refine ⟨⟨fun _ => hviol, fun _ => ⟨err, hmb⟩⟩, ?_, ?_⟩
    · intro e he
      rw [hmb] at he
      injection he with he
      exact assertValid_some_names m e (he ▸ hv)
    · intro bs hbs
      rw [hmb] at hbs
      cases hbs

theorem c4_invalid_value_errors_witness :
    specViolation badSeverityMsg = true
      ∧ ∃ e, MarshalBinary badSeverityMsg = Except.error e :=
  ⟨by decide, (c4_invalid_value_errors badSeverityMsg).1.mpr (by decide)⟩

/-! ### Lemmas about encoding (C3) -/

theorem foldl_params (ps : List SDParam) (b : List Nat) :
    ps.foldl (fun b p => b ++ [32] ++ p.Name ++ [61, 34] ++ escapeSDParam p.Value ++ [34]) b
      = b ++ (ps.map specRenderParam).flatten := by
  induction ps generalizing b with
  | nil => simp
  | cons p rest ih =>
    rw [List.foldl_cons, ih]
    simp [specRenderParam, List.append_assoc]

theorem writeSDElement_spec (b : List Nat) (e : SDElement) :
    writeSDElement b e = b ++ specRenderElement e := by
  unfold writeSDElement specRenderElement
  rw [foldl_params]
  simp [List.append_assoc]

theorem foldl_elements (l : List SDElement) (b : List Nat) :
    l.foldl writeSDElement b = b ++ (l.map specRenderElement).flatten := by
  induction l generalizing b with
  | nil => simp
  | cons e rest ih =>
    rw [List.foldl_cons, writeSDElement_spec, ih]
    simp [List.append_assoc]

theorem assertValid_none_sev (m : Message) (h : assertValid m = none) :
    ¬(m.Severity < 0 ∨ m.Severity > 8) := by
  intro hc
  unfold assertValid at h
  rw [if_pos hc] at h
  cases h

theorem assertValid_none_fac (m : Message) (h : assertValid m = none) :
    ¬(m.Facility < 0 ∨ m.Facility > 23) := by
  intro hc
  unfold assertValid at h
  by_cases h1 : m.Severity < 0 ∨ m.Severity > 8
  · rw [if_pos h1] at h
    cases h
  · rw [if_neg h1, if_pos hc] at h
    cases h

theorem natDigitsAux_zero (fuel : Nat) : natDigitsAux fuel 0 = [] := by
  cases fuel <;> rfl

theorem natDigitsAux_head (fuel : Nat) : ∀ n, 0 < n → n ≤ fuel →
    ∃ d t, natDigitsAux fuel n = d :: t ∧ d ≠ 48 := by
  induction fuel with
  | zero => intro n hn hf; omega
  | succ fuel ih =>
    intro n hn hf
    simp only [natDigitsAux]
    rw [if_neg (by omega)]
    by_cases h10 : n < 10
    · have hq : n / 10 = 0 := Nat.div_eq_of_lt h10
      rw [hq, natDigitsAux_zero]
      refine ⟨48 + n % 10, [], rfl, ?_⟩
      have := Nat.mod_eq_of_lt h10
      omega
    · have h1 : 0 < n / 10 := Nat.div_pos (by omega) (by omega)
      have h2 : n / 10 ≤ fuel := by
        have := Nat.div_lt_self hn (by omega : 1 < 10)
        omega
      obtain ⟨d, t, hdt, hd⟩ := ih (n / 10) h1 h2
      rw [hdt]
      exact ⟨d, t ++ [48 + n % 10], rfl, hd⟩

theorem natToDec_no_leading_zero (n : Nat) :
    natToDec n = [48] ∨ (natToDec n).head? ≠ some 48 := by
  by_cases h : n = 0
  · subst h
    exact Or.inl rfl
  · right
    unfold natToDec
    rw [if_neg h]
    obtain ⟨d, t, hdt, hd⟩ := natDigitsAux_head n n (by omega) le_rfl
    rw [hdt]
    simp [hd]

theorem intToDec_nat (n : Nat) : intToDec (n : Int) = natToDec n := by
  unfold intToDec
  rw [if_neg (by omega), Int.toNat_natCast]

/-- C3: for every message that passes validation, `MarshalBinary` returns
exactly the bytes described by the spec's grammar (`specEncode`): `<PRI>1
TIMESTAMP HOST APPNAME PROCID MSGID SD`, with `-` for empty header fields and
empty structured data, elements concatenated in order, and ` MESSAGE`
appended only when the body is non-empty; and the PRI decimal rendering has
no leading zero. -/
theorem c3_encoded_form (m : Message) (h : assertValid m = none) :
    MarshalBinary m = .ok (specEncode m)
      ∧ (intToDec (Int.lor m.Severity (m.Facility <<< (3 : Int))) = [48]
          ∨ (intToDec (Int.lor m.Severity (m.Facility <<< (3 : Int)))).head? ≠ some 48) := by
  constructor
  · unfold MarshalBinary specEncode
    rw [h]
    simp only [foldl_elements, Except.ok.injEq]
    cases hsd : m.StructuredData <;> cases hmsg : m.Message <;>
      simp [List.append_assoc]
  · have hs := assertValid_none_sev m h
    have hf := assertValid_none_fac m h
    push_neg at hs hf
    obtain ⟨a, ha⟩ : ∃ a : Nat, m.Severity = (a : Int) :=
      ⟨m.Severity.toNat, (Int.toNat_of_nonneg hs.1).symm⟩
    obtain ⟨b, hb⟩ : ∃ b : Nat, m.Facility = (b : Int) :=
      ⟨m.Facility.toNat, (Int.toNat_of_nonneg hf.1).symm⟩
    rw [ha, hb]
    have hsl : ((b : Nat) : Int) <<< (3 : Int) = ((Nat.shiftLeft' false b 3 : Nat) : Int) := rfl
    rw [hsl]
    have hlor : Int.lor ((a : Nat) : Int) ((Nat.shiftLeft' false b 3 : Nat) : Int)
        = ((a ||| Nat.shiftLeft' false b 3 : Nat) : Int) := rfl
    rw [hlor, intToDec_nat]
    exact natToDec_no_leading_zero _

theorem c3_encoded_form_witness :
    assertValid example8 = none
      ∧ MarshalBinary example8 = .ok (specEncode example8)
      ∧ specEncode example8 = gostr
          "<34>1 2003-10-11T22:14:15.003Z mymachine.example.com su - ID47 - 'su root' failed for lonvick on /dev/pts/8" :=
  ⟨by decide, (c3_encoded_form example8 (by decide)).1, by decide⟩

/-! ### Lemmas about reflection and the cache (C7) -/

theorem applyAttrs_fieldIndex (attr1 fieldName typeName : String) :
    ∀ (l : List String) (fr fr' : StructuredDataFieldReflection),
      applyAttrs attr1 fieldName typeName l fr = .ok fr' →
      fr'.FieldIndex = fr.FieldIndex := by
  intro l
  induction l with
  | nil =>
    intro fr fr' h
    simp only [applyAttrs] at h
    injection h with h
    rw [← h]
  | cons a rest ih =>
    intro fr fr' h
    simp only [applyAttrs] at h
    by_cases h1 : attr1 = "omitempty"
    · rw [if_pos h1] at h
      exact (ih { fr with OmitEmpty := true } fr' h).trans rfl
    · rw [if_neg h1] at h
      cases h

theorem buildSDFR_fieldIndex (r : Reflection) (i : Nat) (f : StructField)
    (tp : List String) : (buildSDFR r i f tp).FieldIndex = (i : Int) := by
  simp only [buildSDFR]
  cases hsd : sdMatch (tp.getD 0 "") with
  | none => split <;> split <;> rfl
  | some pr =>
    obtain ⟨sdid, name⟩ := pr
    split <;> split <;> rfl

theorem reflectSDField_props (t : GoType) (r : Reflection) (i : Nat) (f : StructField)
    (r' : Reflection) (h : reflectSDField t r i f = .ok r') :
    r'.Typ = r.Typ ∧
    (r'.StructuredDataFieldReflections = r.StructuredDataFieldReflections ∨
      ∃ fr, fr.FieldIndex = (i : Int) ∧
        r'.StructuredDataFieldReflections = r.StructuredDataFieldReflections ++ [fr]) := by
  simp only [reflectSDField] at h
  split at h
  · injection h with h
    subst h
    exact ⟨rfl, Or.inl rfl⟩
  · split at h
    · injection h with h
      subst h
      exact ⟨rfl, Or.inl rfl⟩
    · split at h
      · cases h
      · rename_i fr heq
        injection h with h
        subst h
        refine ⟨rfl, Or.inr ⟨fr, ?_, rfl⟩⟩
        split at heq
        · rw [applyAttrs_fieldIndex _ _ _ _ _ _ heq, buildSDFR_fieldIndex]
        · injection heq with heq
          rw [← heq, buildSDFR_fieldIndex]

theorem reflectField_props (t : GoType) (r : Reflection) (i : Nat) (f : StructField)
    (r' : Reflection) (h : reflectField t r i f = .ok r') :
    r'.Typ = r.Typ ∧
    (r'.StructuredDataFieldReflections = r.StructuredDataFieldReflections ∨
      ∃ fr, fr.FieldIndex = (i : Int) ∧
        r'.StructuredDataFieldReflections = r.StructuredDataFieldReflections ++ [fr]) := by
  simp only [reflectField] at h
  repeat' split at h
  all_goals
    first
      | (injection h with h) <;> (subst h; exact ⟨rfl, Or.inl rfl⟩)
      | cases h
      | exact reflectSDField_props t r i f r' h

theorem incrFromB_mono (l : List Int) : ∀ i j : Int, i ≤ j →
    incrFromB j l = true → incrFromB i l = true := by
  cases l with
  | nil => intro i j _ _; rfl
  | cons a tl =>
    intro i j hij h
    simp only [incrFromB, Bool.and_eq_true, decide_eq_true_eq] at h ⊢
    exact ⟨le_trans hij h.1, h.2⟩

theorem reflectFields_props (t : GoType) : ∀ (fs : List StructField) (i : Nat) (r r' : Reflection),
    reflectFields t i fs r = .ok r' →
    r'.Typ = r.Typ
      ∧ ∃ ext, r'.StructuredDataFieldReflections = r.StructuredDataFieldReflections ++ ext
        ∧ incrFromB (i : Int) (ext.map (fun fr => fr.FieldIndex)) = true := by
  intro fs
  induction fs with
  | nil =>
    intro i r r' h
    simp only [reflectFields] at h
    injection h with h
    subst h
    exact ⟨rfl, [], by simp, rfl⟩
  | cons f fs ih =>
    intro i r r' h
    simp only [reflectFields] at h
    cases hrf : reflectField t r i f with
    | error e =>
      rw [hrf] at h
      cases h
    | ok r₁ =>
      rw [hrf] at h
      have h' : reflectFields t (i + 1) fs r₁ = .ok r' := h
      obtain ⟨htyp, hsd⟩ := reflectField_props t r i f r₁ hrf
      obtain ⟨htyp', ext, hext, hincr⟩ := ih (i + 1) r₁ r' h'
      push_cast at hincr
      refine ⟨htyp'.trans htyp, ?_⟩
      rcases hsd with hsame | ⟨fr, hfi, happ⟩
      · refine ⟨ext, by rw [hext, hsame], ?_⟩
        exact incrFromB_mono _ _ _ (by simp) hincr
      · refine ⟨fr :: ext, ?_, ?_⟩
        · rw [hext, happ]
          simp
        · simp only [List.map_cons, incrFromB, hfi, Bool.and_eq_true, decide_eq_true_eq]
          exact ⟨le_refl _, hincr⟩

theorem reflectImpl_props (t : GoType) (r : Reflection) (h : reflectImpl t = .ok r) :
    r.Typ = t
      ∧ incrFromB 0 (r.StructuredDataFieldReflections.map (fun fr => fr.FieldIndex)) = true := by
  unfold reflectImpl at h
  obtain ⟨htyp, ext, hext, hincr⟩ := reflectFields_props t t.Fields 0 (initReflection t) r h
  refine ⟨htyp, ?_⟩
  rw [hext]
  show incrFromB 0 ((([] : List StructuredDataFieldReflection) ++ ext).map
    (fun fr => fr.FieldIndex)) = true
  simpa using hincr

theorem cacheLookup_mem (c : ReflectionCache) (k : String) (l : List Reflection)
    (h : cacheLookup c k = some l) : ∃ p, p ∈ c ∧ p.1 = k ∧ p.2 = l := by
  unfold cacheLookup at h
  cases hf : c.find? (fun p => p.1 == k) with
  | none =>
    rw [hf] at h
    cases h
  | some pr =>
    rw [hf] at h
    injection h with h
    exact ⟨pr, List.mem_of_find?_eq_some hf, by simpa using List.find?_some hf, h⟩

theorem cacheInsert_good (c : ReflectionCache) (k : String) (v : List Reflection)
    (hc : CacheGood c) (hv : ∀ r ∈ v, reflectImpl r.Typ = .ok r ∧ r.Typ.Name = k) :
    CacheGood (cacheInsert c k v) := by
  induction c with
  | nil =>
    intro p hp
    simp only [cacheInsert] at hp
    rw [List.mem_singleton] at hp
    subst hp
    exact hv
  | cons q rest ih =>
    intro p hp
    simp only [cacheInsert] at hp
    split at hp
    · rcases List.mem_cons.mp hp with hp | hp
      · subst hp
        exact hv
      · exact hc p (List.mem_cons_of_mem q hp)
    · rcases List.mem_cons.mp hp with hp | hp
      · rw [hp]
        exact hc q (List.mem_cons_self q rest)
      · exact ih (fun x hx => hc x (List.mem_cons_of_mem q hx)) p hp

theorem Reflect_ok (c : ReflectionCache) (t : GoType) (r : Reflection) (c' : ReflectionCache)
    (hc : CacheGood c) (h : Reflect c t = .ok (r, c')) :
    reflectImpl t = .ok r ∧ CacheGood c' := by
  unfold Reflect at h
  cases hl : cacheLookup c t.Name with
  | none =>
    simp only [hl] at h
    cases hri : reflectImpl t with
    | error e =>
      simp only [hri] at h
      cases h
    | ok r₀ =>
      simp only [hri, Except.ok.injEq, Prod.mk.injEq] at h
      obtain ⟨h1, h2⟩ := h
      subst h1
      subst h2
      refine ⟨rfl, cacheInsert_good c t.Name [r₀] hc ?_⟩
      intro x hx
      rw [List.mem_singleton] at hx
      subst hx
      have htyp := (reflectImpl_props t x hri).1
      rw [htyp]
      exact ⟨hri, rfl⟩
  | some list =>
    simp only [hl] at h
    obtain ⟨pr, hpr, hk, hv⟩ := cacheLookup_mem c t.Name list hl
    cases hf : list.find? (fun r => r.Typ == t) with
    | some r₀ =>
      simp only [hf, Except.ok.injEq, Prod.mk.injEq] at h
      obtain ⟨h1, h2⟩ := h
      subst h1
      subst h2
      have hmem : r₀ ∈ list := List.mem_of_find?_eq_some hf
      have htyp : r₀.Typ = t := by simpa using List.find?_some hf
      have hgood := hc pr hpr r₀ (by rw [hv]; exact hmem)
      exact ⟨htyp ▸ hgood.1, hc⟩
    | none =>
      simp only [hf] at h
      cases hri : reflectImpl t with
      | error e =>
        simp only [hri] at h
        cases h
      | ok r₀ =>
        simp only [hri, Except.ok.injEq, Prod.mk.injEq] at h
        obtain ⟨h1, h2⟩ := h
        subst h1
        subst h2
        refine ⟨rfl, cacheInsert_good c t.Name (list ++ [r₀]) hc ?_⟩
        intro x hx
        rcases List.mem_append.mp hx with hx | hx
        · have hgood := hc pr hpr x (by rw [hv]; exact hx)
          exact ⟨hgood.1, hgood.2.trans hk⟩
        · rw [List.mem_singleton] at hx
          subst hx
          have htyp := (reflectImpl_props t x hri).1
          rw [htyp]
          exact ⟨hri, rfl⟩

/-- C7 counterexample: two record types with identical declared fields and
tags but different names yield different FieldMaps (the MessageID default is
the type's own name), so the FieldMap is not a pure function of the declared
fields and tags alone. -/
theorem c7_counterexample :
    namedTypeA.Fields = namedTypeB.Fields
      ∧ reflectImpl namedTypeA ≠ reflectImpl namedTypeB :=
  ⟨rfl, by decide⟩

/-- C7 amended: reflecting the same concrete type twice through the cache
returns identical FieldMaps regardless of which call computed them; the
FieldMap is a pure function of the type (its name included, since the
MessageID default is the type's name); and structured-data descriptors are
listed in field declaration order (strictly increasing field indices). -/
theorem c7_cache_deterministic (c : ReflectionCache) (t : GoType) (r₁ r₂ : Reflection)
    (c₁ c₂ : ReflectionCache) (hc : CacheGood c)
    (h₁ : Reflect c t = .ok (r₁, c₁)) (h₂ : Reflect c₁ t = .ok (r₂, c₂)) :
    r₁ = r₂ ∧ reflectImpl t = .ok r₁
      ∧ incrFromB 0 (r₁.StructuredDataFieldReflections.map (fun fr => fr.FieldIndex)) = true := by
  obtain ⟨hi₁, hg₁⟩ := Reflect_ok c t r₁ c₁ hc h₁
  obtain ⟨hi₂, _⟩ := Reflect_ok c₁ t r₂ c₂ hg₁ h₂
  have heq : r₁ = r₂ := by
    rw [hi₁] at hi₂
    injection hi₂
  exact ⟨heq, hi₁, (reflectImpl_props t r₁ hi₁).2⟩

theorem c7_cache_deterministic_witness :
    twoFieldReflection = twoFieldReflection
      ∧ reflectImpl twoFieldType = .ok twoFieldReflection
      ∧ incrFromB 0 (twoFieldReflection.StructuredDataFieldReflections.map
          (fun fr => fr.FieldIndex)) = true :=
  c7_cache_deterministic [] twoFieldType twoFieldReflection twoFieldReflection
    twoFieldCache twoFieldCache (fun p hp => absurd hp (List.not_mem_nil p))
    (by decide) (by decide)

end Rfc5424
